import Mathlib

/-!
Shallow embedding of the go.netutil repository.

The repository contains two near-identical idle-shutdown trackers —
package netutil (file modelled from src/unnamed/part_002 plus
src/connection.go) and package idletracker (src/unnamed/part_001) —
and a single-use connection-to-listener adapter (src/connection.go).

Modelling conventions:
* wall-clock instants and durations (Go time.Time / time.Duration,
  int64 nanoseconds) are Int; no arithmetic here comes near 2^63, so
  overflow is immaterial;
* a Go channel that is only ever closed is a Bool flag (closed or not);
* the single background goroutine spawned by NewIdleTracker is modelled
  by reacting to explicit events (parent-done fires, timer fires); its
  one-shot nature (the goroutine terminates after its select resolves)
  is the raceDone flag, and which channels its select waits on is the
  waitsOnParent flag;
* Go errors are an inductive type; nil error is Option.none.
-/

/-- Go error values that occur in the repository: context.DeadlineExceeded,
context.Canceled (or any other error a parent context reports, see ioErr),
os.ErrClosed, and arbitrary further errors such as net.FileConn failures. -/
inductive GoError where
  | deadlineExceeded
  | canceled
  | errClosed
  | ioErr (n : Nat)
deriving DecidableEq, Repr

/-- The five connection states of net/http.Server.ConnState. -/
inductive HttpConnState where
  | stateNew
  | stateActive
  | stateIdle
  | stateHijacked
  | stateClosed
deriving DecidableEq, Repr

/-- The aspects of a parent context.Context that NewIdleTracker reads:
whether Done() returns a non-nil channel (cancellable), whether that
channel is already closed at construction time (alreadyDone), and the
error Err() reports once done. -/
structure ParentCtx where
  cancellable : Bool
  alreadyDone : Bool
  err : GoError
deriving DecidableEq, Repr

/-- State of an IdleTracker (both packages declare the identical struct).
dangling is the set of live connection identities (net.Conn values are
identities Int); timerRunning models whether the time.Timer is currently
armed; deadline and patience are as in the struct; doneClosed models
whether the done channel has been closed; permErr is the write-once
terminal error. raceDone and waitsOnParent are bookkeeping for the
background goroutine: raceDone is true once the goroutine has resolved
its select (or was never spawned), waitsOnParent is true when the
spawned goroutine's select includes parent.Done(). -/
structure IdleTracker where
  dangling : Finset Int
  timerRunning : Bool
  deadline : Int
  patience : Int
  doneClosed : Bool
  permErr : Option GoError
  raceDone : Bool
  waitsOnParent : Bool
deriving DecidableEq

/-- Fifteen minutes in nanoseconds, the default patience of both
constructors (15 * time.Minute). -/
def defaultPatience : Int := 15 * 60 * 1000000000

/-- NewIdleTracker, identical in both packages up to the goroutine bodies
(which are modelled by the step functions below): normalizes patience,
starts the timer with deadline now + patience. If parent.Done() is nil,
a goroutine waits on the timer alone. If the parent is already done, no
goroutine is spawned: permErr adopts parent.Err(), deadline becomes now,
and done is closed synchronously. Otherwise a goroutine races
parent.Done() against the timer. -/
def NewIdleTracker (parent : ParentCtx) (patience : Int) (now : Int) : IdleTracker :=
  let patience := if patience ≤ 0 then defaultPatience else patience
  if parent.cancellable = false then
    { dangling := ∅, timerRunning := true, deadline := now + patience,
      patience := patience, doneClosed := false, permErr := none,
      raceDone := false, waitsOnParent := false }
  else if parent.alreadyDone then
    { dangling := ∅, timerRunning := true, deadline := now,
      patience := patience, doneClosed := true, permErr := some parent.err,
      raceDone := true, waitsOnParent := false }
  else
    { dangling := ∅, timerRunning := true, deadline := now + patience,
      patience := patience, doneClosed := false, permErr := none,
      raceDone := false, waitsOnParent := true }

/-- ConnState handler, textually identical in both packages: on new/active
insert the connection and stop the timer when the set was empty; on
hijacked remove it without touching the timer; on idle/closed remove it
and, when this empties a previously non-empty set, stop-then-reset the
timer and recompute deadline = now + patience. -/
def ConnState (t : IdleTracker) (conn : Int) (state : HttpConnState) (now : Int) :
    IdleTracker :=
  let oldActive := t.dangling.card
  match state with
  | .stateNew | .stateActive =>
      let t' := { t with dangling := insert conn t.dangling }
      if oldActive = 0 then { t' with timerRunning := false } else t'
  | .stateHijacked =>
      { t with dangling := t.dangling.erase conn }
  | .stateIdle | .stateClosed =>
      let t' := { t with dangling := t.dangling.erase conn }
      if 0 < oldActive ∧ t'.dangling.card = 0 then
        { t' with timerRunning := true, deadline := now + t.patience }
      else t'

/-- Deadline method, identical in both packages: when dangling is
non-empty return the zero time and false; otherwise the current deadline
and true. -/
def Deadline (t : IdleTracker) : Int × Bool :=
  if 0 < t.dangling.card then (0, false) else (t.deadline, true)

/-- Events an IdleTracker reacts to after construction: a ConnState
callback, the parent's done channel firing, or the deadline timer
firing. -/
inductive Event where
  | connState (conn : Int) (state : HttpConnState) (now : Int)
  | parentCancel
  | timerFire
deriving DecidableEq, Repr

namespace netutil

/-- One event of the netutil tracker (src/unnamed/part_002). parentCancel
has an effect only while the racing goroutine is still waiting on
parent.Done(): it latches permErr to parent.Err() and closes done. A
timer fire requires the timer to be armed; if the goroutine is still
waiting it latches context.DeadlineExceeded unconditionally and closes
done (both the timer-only and the racing goroutine of this package do
so). A goroutine whose select has resolved ignores later events. -/
def step (parent : ParentCtx) (t : IdleTracker) : Event → IdleTracker
  | .connState conn st now => ConnState t conn st now
  | .parentCancel =>
      if t.raceDone ∨ t.waitsOnParent = false then t
      else { t with permErr := some parent.err, doneClosed := true, raceDone := true }
  | .timerFire =>
      if t.timerRunning = false then t
      else if t.raceDone then { t with timerRunning := false }
      else { t with timerRunning := false, permErr := some .deadlineExceeded,
                    doneClosed := true, raceDone := true }

/-- Run the netutil tracker from construction over a list of events. -/
def run (parent : ParentCtx) (patience now : Int) (evs : List Event) : IdleTracker :=
  evs.foldl (step parent) (NewIdleTracker parent patience now)

end netutil

namespace idletracker

/-- One event of the idletracker tracker (src/unnamed/part_001). It
differs from netutil.step in exactly one place: in the racing goroutine
(waitsOnParent true), the timer branch reads
  if i.permErr != nil \x7b i.permErr = context.DeadlineExceeded \x7d
so DeadlineExceeded is assigned only when permErr is already non-nil;
otherwise permErr is left unchanged while done is still closed. The
timer-only goroutine (waitsOnParent false) assigns unconditionally, as
in netutil. -/
def step (parent : ParentCtx) (t : IdleTracker) : Event → IdleTracker
  | .connState conn st now => ConnState t conn st now
  | .parentCancel =>
      if t.raceDone ∨ t.waitsOnParent = false then t
      else { t with permErr := some parent.err, doneClosed := true, raceDone := true }
  | .timerFire =>
      if t.timerRunning = false then t
      else if t.raceDone then { t with timerRunning := false }
      else if t.waitsOnParent then
        { t with timerRunning := false,
                 permErr := if t.permErr ≠ none then some .deadlineExceeded else t.permErr,
                 doneClosed := true, raceDone := true }
      else
        { t with timerRunning := false, permErr := some .deadlineExceeded,
                 doneClosed := true, raceDone := true }

/-- Run the idletracker tracker from construction over a list of events. -/
def run (parent : ParentCtx) (patience now : Int) (evs : List Event) : IdleTracker :=
  evs.foldl (step parent) (NewIdleTracker parent patience now)

end idletracker

/-- Fold the ConnState handler over a list of (conn, state, now) callback
records; these are the states reachable from construction by ConnState
events alone. -/
def applyConnStates (t : IdleTracker) : List (Int × HttpConnState × Int) → IdleTracker
  | [] => t
  | (conn, st, now) :: rest => applyConnStates (ConnState t conn st now) rest

namespace netutil

/-- State of an acceptedConnection (src/connection.go): whether doneChan
has been allocated (non-nil, set by the first successful Accept), the
write-once permErr, and whether the underlying file descriptor was
closed by Close. The Listener field only serves Addr and carries no
state relevant here. -/
structure AcceptedConn where
  doneChanAllocated : Bool
  permErr : Option GoError
  fileClosed : Bool
deriving DecidableEq

/-- A fresh acceptedConnection as built by AcceptedConnection(file):
no doneChan, no terminal error, descriptor open. -/
def initAcceptedConn : AcceptedConn := ⟨false, none, false⟩

/-- Outcome of one Accept call: a (wrapped) connection, an immediate
error, or the blocking path through tailWaitUntilFirstIsDone, which
parks on doneChan and returns (nil, os.ErrClosed) once it is closed. -/
inductive AcceptResult where
  | conn
  | err (e : GoError)
  | blockedThenClosed
deriving DecidableEq, Repr

/-- Accept (src/connection.go lines 49-70). fileConnErr is the outcome
of net.FileConn(c.file): none on success, some e on failure. Under the
lock: a set permErr is returned as-is; a non-nil doneChan sends the call
into the blocking tail that ends in os.ErrClosed; otherwise the
connection is materialized — on failure permErr latches to that error,
on success doneChan is allocated and the cascading-closer wrapper is
returned. -/
def Accept (c : AcceptedConn) (fileConnErr : Option GoError) :
    AcceptedConn × AcceptResult :=
  match c.permErr with
  | some e => (c, .err e)
  | none =>
    if c.doneChanAllocated then (c, .blockedThenClosed)
    else
      match fileConnErr with
      | some e => ({ c with permErr := some e }, .err e)
      | none => ({ c with doneChanAllocated := true }, .conn)

/-- Close (src/connection.go lines 78-85): set permErr to os.ErrClosed
only when still unset, then close the underlying descriptor. -/
def Close (c : AcceptedConn) : AcceptedConn :=
  let c := if c.permErr = none then { c with permErr := some GoError.errClosed } else c
  { c with fileClosed := true }

/-- Operations a client can perform on the listener. -/
inductive LOp where
  | accept (fileConnErr : Option GoError)
  | close
deriving DecidableEq, Repr

/-- Run a list of operations from a given state, collecting the result
of every Accept call in order. -/
def runOps (c : AcceptedConn) : List LOp → AcceptedConn × List AcceptResult
  | [] => (c, [])
  | .accept fc :: rest =>
      let p := Accept c fc
      let q := runOps p.1 rest
      (q.1, p.2 :: q.2)
  | .close :: rest => runOps (Close c) rest

/-- Number of Accept calls in a result list that delivered a connection. -/
def connCount (rs : List AcceptResult) : Nat :=
  rs.countP (fun r => r = AcceptResult.conn)

/-- The select in cascadingCloser.Close (src/connection.go lines 95-106):
nothing is ever sent on closeChan, so the receive case fires exactly
when the channel is already closed (open = false there, so no second
close); otherwise the default case closes it. The input is whether the
channel is closed; the output is the channel state afterwards and
whether this call performed close(). The underlying Conn.Close is
always called and is not modelled. -/
def cascadingClose (chanClosed : Bool) : Bool × Bool :=
  if chanClosed then (true, false) else (true, true)

/-- Channel state and total number of close() invocations after n calls
to the wrapper's Close, starting from the freshly allocated (open)
channel. -/
def closeNTimes : Nat → Bool × Nat
  | 0 => (false, 0)
  | n + 1 =>
      let p := closeNTimes n
      let q := cascadingClose p.1
      (q.1, p.2 + if q.2 then 1 else 0)

end netutil

/-- Coupling between an idletracker-package state and a netutil-package
state fed the same events: all fields agree except possibly permErr,
which agrees unless the netutil side has latched deadline-exceeded while
the idletracker side was left at nil; before the race resolves both are
nil. -/
def Coupled (t1 t2 : IdleTracker) : Prop :=
  t1.dangling = t2.dangling ∧ t1.timerRunning = t2.timerRunning ∧
  t1.deadline = t2.deadline ∧ t1.patience = t2.patience ∧
  t1.doneClosed = t2.doneClosed ∧ t1.raceDone = t2.raceDone ∧
  t1.waitsOnParent = t2.waitsOnParent ∧
  (t2.raceDone = false → t1.permErr = none ∧ t2.permErr = none) ∧
  (t1.permErr = t2.permErr ∨
    (t2.permErr = some GoError.deadlineExceeded ∧ t1.permErr = none))

/-- Invariant of the listener: once doneChan has been allocated, permErr
is either still unset or the closed sentinel set by Close — a
materialization failure can only be latched before the first successful
Accept. -/
def AllocInv (c : netutil.AcceptedConn) : Prop :=
  c.doneChanAllocated = true →
    c.permErr = none ∨ c.permErr = some GoError.errClosed

/-! Helper lemmas about the ConnState handler. -/

lemma ConnState_keeps_timer_empty (t : IdleTracker) (conn : Int) (st : HttpConnState)
    (now : Int) (h : t.timerRunning = true → t.dangling = ∅) :
    (ConnState t conn st now).timerRunning = true →
    (ConnState t conn st now).dangling = ∅ := by
  cases st <;> simp only [ConnState] <;>
    first
      | (split <;> simp_all [Finset.card_eq_zero])
      | simp_all [Finset.card_eq_zero]

lemma applyConnStates_keeps_timer_empty (evs : List (Int × HttpConnState × Int)) :
    ∀ t : IdleTracker, (t.timerRunning = true → t.dangling = ∅) →
    (applyConnStates t evs).timerRunning = true → (applyConnStates t evs).dangling = ∅ := by
  induction evs with
  | nil => intro t h; simpa [applyConnStates] using h
  | cons ev rest ih =>
      intro t h
      obtain ⟨conn, st, now⟩ := ev
      simpa [applyConnStates] using
        ih (ConnState t conn st now) (ConnState_keeps_timer_empty t conn st now h)

lemma NewIdleTracker_timer_empty (parent : ParentCtx) (patience now : Int) :
    (NewIdleTracker parent patience now).timerRunning = true →
    (NewIdleTracker parent patience now).dangling = ∅ := by
  simp only [NewIdleTracker]
  split <;> [skip; split] <;> intro _ <;> rfl

/-- Claim C3 counterexample: the claimed equivalence fails. After a new
connection (timer stopped) is hijacked, the dangling set is empty yet
the timer is not running, because the hijacked branch does not touch the
timer. -/
theorem hijacked_breaks_timer_iff :
    ¬ ((applyConnStates (NewIdleTracker ⟨true, false, GoError.canceled⟩ 100 0)
          [(1, HttpConnState.stateNew, 5), (1, HttpConnState.stateHijacked, 7)]).timerRunning
            = true ↔
        (applyConnStates (NewIdleTracker ⟨true, false, GoError.canceled⟩ 100 0)
          [(1, HttpConnState.stateNew, 5), (1, HttpConnState.stateHijacked, 7)]).dangling
            = ∅) := by
  decide

/-- Claim C3 (amended): in every state reachable from construction by ConnState
events, if the deadline timer is running then the dangling set is empty.
The converse direction of the claimed equivalence fails after a hijacked
removal empties the set. -/
theorem timer_running_implies_no_dangling (parent : ParentCtx) (patience now : Int)
    (evs : List (Int × HttpConnState × Int))
    (h : (applyConnStates (NewIdleTracker parent patience now) evs).timerRunning = true) :
    (applyConnStates (NewIdleTracker parent patience now) evs).dangling = ∅ :=
  applyConnStates_keeps_timer_empty evs _ (NewIdleTracker_timer_empty parent patience now) h

/-- Witness for timer_running_implies_no_dangling at a concrete run: one
connection goes new then idle, the timer is running again and the set is
empty. -/
theorem timer_running_implies_no_dangling_witness :
    (applyConnStates (NewIdleTracker ⟨true, false, GoError.canceled⟩ 100 0)
      [(1, HttpConnState.stateNew, 5), (1, HttpConnState.stateIdle, 9)]).dangling = ∅ :=
  timer_running_implies_no_dangling ⟨true, false, GoError.canceled⟩ 100 0
    [(1, HttpConnState.stateNew, 5), (1, HttpConnState.stateIdle, 9)] (by decide)

/-- Claim C6: Deadline reports an active deadline exactly when the dangling set
is empty; with the set empty it returns the stored deadline and true,
with any live connection it returns the zero time and false. -/
theorem deadline_reports_iff_idle (t : IdleTracker) :
    ((Deadline t).2 = true ↔ t.dangling = ∅) ∧
    (t.dangling = ∅ → Deadline t = (t.deadline, true)) ∧
    (t.dangling ≠ ∅ → Deadline t = (0, false)) := by
  rcases eq_or_ne t.dangling ∅ with h | h <;>
    simp [Deadline, h, Finset.card_pos, Finset.nonempty_iff_ne_empty]

/-- Witness for deadline_reports_iff_idle: both branches evaluated on
concrete trackers. -/
theorem deadline_reports_iff_idle_witness :
    Deadline ⟨∅, true, 42, 7, false, none, false, false⟩ = (42, true) ∧
    Deadline ⟨{3}, false, 42, 7, false, none, false, false⟩ = (0, false) :=
  ⟨(deadline_reports_iff_idle ⟨∅, true, 42, 7, false, none, false, false⟩).2.1 (by decide),
   (deadline_reports_iff_idle ⟨{3}, false, 42, 7, false, none, false, false⟩).2.2 (by decide)⟩

/-- Claim C7: an idle or closed event that empties a non-empty dangling set at
a time strictly later than the previous deadline computation recomputes
the deadline to now + patience, strictly later than the preceding idle
deadline. -/
theorem idle_deadline_advances (t : IdleTracker) (conn prevNow now : Int)
    (st : HttpConnState)
    (hst : st = HttpConnState.stateIdle ∨ st = HttpConnState.stateClosed)
    (hdl : t.deadline = prevNow + t.patience) (hlt : prevNow < now)
    (hne : t.dangling ≠ ∅) (hemp : t.dangling.erase conn = ∅) :
    (ConnState t conn st now).deadline = now + t.patience ∧
    t.deadline < (ConnState t conn st now).deadline := by
  have hcard : 0 < t.dangling.card :=
    Finset.card_pos.mpr (Finset.nonempty_iff_ne_empty.mpr hne)
  have hc0 : (t.dangling.erase conn).card = 0 := by simp [hemp]
  rcases hst with h | h <;> subst h <;>
    simp only [ConnState] <;>
    rw [if_pos ⟨hcard, hc0⟩] <;>
    refine ⟨rfl, ?_⟩ <;> (show t.deadline < now + t.patience) <;> omega

/-- Witness for idle_deadline_advances: one tracked connection goes idle
at time 105, patience 7, previous deadline 107 computed at 100; the new
deadline is 112 and has advanced. -/
theorem idle_deadline_advances_witness :
    (ConnState ⟨{1}, false, 107, 7, false, none, false, false⟩ 1
        HttpConnState.stateIdle 105).deadline = 105 + 7 ∧
    (107 : Int) <
      (ConnState ⟨{1}, false, 107, 7, false, none, false, false⟩ 1
        HttpConnState.stateIdle 105).deadline :=
  idle_deadline_advances ⟨{1}, false, 107, 7, false, none, false, false⟩ 1 100 105
    HttpConnState.stateIdle (Or.inl rfl) (by decide) (by decide) (by decide) (by decide)

/-- Claim C8: a non-positive patience supplied to NewIdleTracker is replaced by
the default of 15 minutes (in nanoseconds). -/
theorem nonpositive_patience_defaults (parent : ParentCtx) (patience now : Int)
    (h : patience ≤ 0) :
    (NewIdleTracker parent patience now).patience = 15 * 60 * 1000000000 := by
  simp only [NewIdleTracker, defaultPatience, if_pos h]
  split <;> [rfl; split <;> rfl]

/-- Witness for nonpositive_patience_defaults at patience -5. -/
theorem nonpositive_patience_defaults_witness :
    (NewIdleTracker ⟨true, false, GoError.canceled⟩ (-5) 0).patience
      = 15 * 60 * 1000000000 :=
  nonpositive_patience_defaults ⟨true, false, GoError.canceled⟩ (-5) 0 (by decide)

/-! Helper lemmas about the event step functions. -/

lemma ConnState_keeps_control (t : IdleTracker) (conn : Int) (st : HttpConnState)
    (now : Int) :
    (ConnState t conn st now).permErr = t.permErr ∧
    (ConnState t conn st now).raceDone = t.raceDone ∧
    (ConnState t conn st now).doneClosed = t.doneClosed ∧
    (ConnState t conn st now).waitsOnParent = t.waitsOnParent ∧
    (ConnState t conn st now).patience = t.patience := by
  cases st <;> simp only [ConnState] <;> (first | split | skip) <;> simp

lemma netutil_step_raceDone (parent : ParentCtx) (t : IdleTracker) (ev : Event)
    (h : t.raceDone = true) :
    (netutil.step parent t ev).permErr = t.permErr ∧
    (netutil.step parent t ev).raceDone = true := by
  cases ev with
  | connState conn st now =>
      have hc := ConnState_keeps_control t conn st now
      exact ⟨hc.1, hc.2.1.trans h⟩
  | parentCancel => simp [netutil.step, h]
  | timerFire =>
      by_cases hr : t.timerRunning = false <;> simp [netutil.step, hr, h]

lemma netutil_foldl_raceDone (parent : ParentCtx) (evs : List Event) :
    ∀ t : IdleTracker, t.raceDone = true →
    (evs.foldl (netutil.step parent) t).permErr = t.permErr ∧
    (evs.foldl (netutil.step parent) t).raceDone = true := by
  induction evs with
  | nil => intro t h; exact ⟨rfl, h⟩
  | cons ev rest ih =>
      intro t h
      obtain ⟨h1, h2⟩ := netutil_step_raceDone parent t ev h
      have hrest := ih (netutil.step parent t ev) h2
      exact ⟨hrest.1.trans h1, hrest.2⟩

lemma netutil_step_latchInv (parent : ParentCtx) (t : IdleTracker) (ev : Event)
    (h : t.permErr ≠ none → t.raceDone = true) :
    (netutil.step parent t ev).permErr ≠ none →
    (netutil.step parent t ev).raceDone = true := by
  cases ev with
  | connState conn st now =>
      have hc := ConnState_keeps_control t conn st now
      simp only [netutil.step]
      rw [hc.1, hc.2.1]; exact h
  | parentCancel =>
      simp only [netutil.step]
      split
      · exact h
      · intro _; rfl
  | timerFire =>
      simp only [netutil.step]
      split
      · exact h
      · split
        · next hr => intro _; exact hr
        · intro _; rfl

lemma NewIdleTracker_latchInv (parent : ParentCtx) (patience now : Int) :
    (NewIdleTracker parent patience now).permErr ≠ none →
    (NewIdleTracker parent patience now).raceDone = true := by
  simp only [NewIdleTracker]
  split <;> [skip; split] <;> intro h <;> first | rfl | exact absurd rfl h

lemma netutil_foldl_latchInv (parent : ParentCtx) (evs : List Event) :
    ∀ t : IdleTracker, (t.permErr ≠ none → t.raceDone = true) →
    ((evs.foldl (netutil.step parent) t).permErr ≠ none →
      (evs.foldl (netutil.step parent) t).raceDone = true) := by
  induction evs with
  | nil => intro t h; exact h
  | cons ev rest ih => intro t h; exact ih _ (netutil_step_latchInv parent t ev h)

/-- Claim C2: in the netutil tracker, once Err() reports an error after some
sequence of events, any further events — in particular a later parent
cancellation after the deadline was exceeded — leave Err() unchanged:
permErr is written at most once, by whichever cause resolved the
background race first. -/
theorem permErr_latched_forever (parent : ParentCtx) (patience now : Int)
    (evs evs' : List Event) (e : GoError)
    (h : (netutil.run parent patience now evs).permErr = some e) :
    (netutil.run parent patience now (evs ++ evs')).permErr = some e := by
  have hsome : (netutil.run parent patience now evs).permErr ≠ none := by
    rw [h]; exact Option.some_ne_none e
  have hrd : (netutil.run parent patience now evs).raceDone = true :=
    netutil_foldl_latchInv parent evs (NewIdleTracker parent patience now)
      (NewIdleTracker_latchInv parent patience now) hsome
  have hkeep := netutil_foldl_raceDone parent evs'
    (netutil.run parent patience now evs) hrd
  rw [netutil.run, List.foldl_append]
  exact hkeep.1.trans h

/-- Witness for permErr_latched_forever: the timer fires first, then the
parent is cancelled; Err() still reports deadline-exceeded. -/
theorem permErr_latched_forever_witness :
    (netutil.run ⟨true, false, GoError.canceled⟩ 100 0
      ([Event.timerFire] ++ [Event.parentCancel])).permErr
      = some GoError.deadlineExceeded :=
  permErr_latched_forever ⟨true, false, GoError.canceled⟩ 100 0
    [Event.timerFire] [Event.parentCancel] GoError.deadlineExceeded (by decide)

/-- Claim C1: at the failing input — a cancellable, never-cancelled parent and
the timer firing first — the netutil tracker latches deadline-exceeded
and closes done, as the claim states; the idletracker package instead
closes done while leaving Err() nil, because its race goroutine guards
the assignment with a permErr-non-nil test that can never hold there. -/
theorem timer_first_err_divergence :
    (netutil.run ⟨true, false, GoError.canceled⟩ 100 0 [Event.timerFire]).permErr
      = some GoError.deadlineExceeded ∧
    (netutil.run ⟨true, false, GoError.canceled⟩ 100 0 [Event.timerFire]).doneClosed
      = true ∧
    (idletracker.run ⟨true, false, GoError.canceled⟩ 100 0 [Event.timerFire]).permErr
      = none ∧
    (idletracker.run ⟨true, false, GoError.canceled⟩ 100 0 [Event.timerFire]).doneClosed
      = true := by
  decide

lemma coupled_init (parent : ParentCtx) (patience now : Int) :
    Coupled (NewIdleTracker parent patience now) (NewIdleTracker parent patience now) := by
  simp only [NewIdleTracker, Coupled]
  split <;> [skip; split] <;> simp

lemma coupled_step (parent : ParentCtx) (t1 t2 : IdleTracker) (ev : Event)
    (h : Coupled t1 t2) :
    Coupled (idletracker.step parent t1 ev) (netutil.step parent t2 ev) := by
  obtain ⟨d1, r1, dl1, p1, dc1, pe1, rd1, w1⟩ := t1
  obtain ⟨d2, r2, dl2, p2, dc2, pe2, rd2, w2⟩ := t2
  obtain ⟨h1, h2, h3, h4, h5, h6, h7, h8, h9⟩ := h
  dsimp only at h1 h2 h3 h4 h5 h6 h7 h8 h9
  subst h1; subst h2; subst h3; subst h4; subst h5; subst h6; subst h7
  cases ev with
  | connState conn st now =>
      cases st <;>
        simp only [idletracker.step, netutil.step, ConnState, Coupled] <;>
        (try split) <;> simp_all
  | parentCancel =>
      cases rd1 <;> cases w1 <;>
        simp_all [idletracker.step, netutil.step, Coupled]
  | timerFire =>
      cases rd1 <;> cases w1 <;> cases r1 <;>
        simp_all [idletracker.step, netutil.step, Coupled]

lemma coupled_foldl (parent : ParentCtx) (evs : List Event) :
    ∀ t1 t2 : IdleTracker, Coupled t1 t2 →
    Coupled (evs.foldl (idletracker.step parent) t1)
      (evs.foldl (netutil.step parent) t2) := by
  induction evs with
  | nil => intro t1 t2 h; exact h
  | cons ev rest ih =>
      intro t1 t2 h
      exact ih _ _ (coupled_step parent t1 t2 ev h)

/-- Claim C10 counterexample: the two packages are not observationally
equivalent. With a cancellable, never-cancelled parent and the timer
firing first, Err() disagrees: netutil reports deadline-exceeded,
idletracker reports nil. -/
theorem trackers_differ_on_timer_race :
    ¬ ((idletracker.run ⟨true, false, GoError.canceled⟩ 100 0 [Event.timerFire]).permErr
        = (netutil.run ⟨true, false, GoError.canceled⟩ 100 0 [Event.timerFire]).permErr) := by
  decide

/-- Claim C10 (amended): for the same parent, patience and event sequence the
two trackers agree on the closure of Done(), the dangling set, the
deadline and the patience, and Err() agrees except in the case where the
timer won the background race, where netutil reports deadline-exceeded
while idletracker reports nil. -/
theorem trackers_agree_except_timer_race (parent : ParentCtx) (patience now : Int)
    (evs : List Event) :
    (idletracker.run parent patience now evs).doneClosed
      = (netutil.run parent patience now evs).doneClosed ∧
    (idletracker.run parent patience now evs).dangling
      = (netutil.run parent patience now evs).dangling ∧
    (idletracker.run parent patience now evs).deadline
      = (netutil.run parent patience now evs).deadline ∧
    (idletracker.run parent patience now evs).patience
      = (netutil.run parent patience now evs).patience ∧
    ((idletracker.run parent patience now evs).permErr
        = (netutil.run parent patience now evs).permErr ∨
      ((netutil.run parent patience now evs).permErr = some GoError.deadlineExceeded ∧
       (idletracker.run parent patience now evs).permErr = none)) := by
  have h := coupled_foldl parent evs _ _ (coupled_init parent patience now)
  exact ⟨h.2.2.2.2.1, h.1, h.2.2.1, h.2.2.2.1, h.2.2.2.2.2.2.2.2⟩

/-! Helper lemmas about the single-accept listener. -/

lemma Accept_after_alloc (c : netutil.AcceptedConn) (fc : Option GoError)
    (h : c.doneChanAllocated = true) :
    (netutil.Accept c fc).1 = c ∧
    ((c.permErr = none ∧ (netutil.Accept c fc).2 = netutil.AcceptResult.blockedThenClosed) ∨
      ∃ e, c.permErr = some e ∧ (netutil.Accept c fc).2 = netutil.AcceptResult.err e) := by
  rcases hp : c.permErr with _ | e <;> simp [netutil.Accept, hp, h]

lemma Close_keeps_alloc (c : netutil.AcceptedConn) :
    (netutil.Close c).doneChanAllocated = c.doneChanAllocated := by
  rcases hp : c.permErr with _ | e <;> simp [netutil.Close, hp]

lemma connCount_cons (r : netutil.AcceptResult) (rs : List netutil.AcceptResult) :
    netutil.connCount (r :: rs) =
      netutil.connCount rs + (if r = netutil.AcceptResult.conn then 1 else 0) := by
  simp [netutil.connCount, List.countP_cons]

lemma runOps_no_conn_after_alloc (ops : List netutil.LOp) :
    ∀ c : netutil.AcceptedConn, c.doneChanAllocated = true →
    (netutil.runOps c ops).1.doneChanAllocated = true ∧
    netutil.connCount (netutil.runOps c ops).2 = 0 := by
  induction ops with
  | nil => intro c h; exact ⟨h, rfl⟩
  | cons op rest ih =>
      intro c h
      cases op with
      | accept fc =>
          obtain ⟨hs, hr⟩ := Accept_after_alloc c fc h
          have hrest := ih c h
          constructor
          · show (netutil.runOps (netutil.Accept c fc).1 rest).1.doneChanAllocated = true
            rw [hs]; exact hrest.1
          · show netutil.connCount
              ((netutil.Accept c fc).2 :: (netutil.runOps (netutil.Accept c fc).1 rest).2) = 0
            rw [hs, connCount_cons, hrest.2]
            rcases hr with ⟨_, hr⟩ | ⟨e, _, hr⟩ <;> simp [hr]
      | close =>
          have hrest := ih (netutil.Close c) (by rw [Close_keeps_alloc]; exact h)
          exact ⟨hrest.1, hrest.2⟩

lemma runOps_conn_le_one (ops : List netutil.LOp) :
    ∀ c : netutil.AcceptedConn, netutil.connCount (netutil.runOps c ops).2 ≤ 1 := by
  induction ops with
  | nil => intro c; exact Nat.zero_le 1
  | cons op rest ih =>
      intro c
      cases op with
      | accept fc =>
          show netutil.connCount
            ((netutil.Accept c fc).2 :: (netutil.runOps (netutil.Accept c fc).1 rest).2) ≤ 1
          rw [connCount_cons]
          rcases hp : c.permErr with _ | e
          · cases hal : c.doneChanAllocated
            · rcases fc with _ | e
              · have ha : netutil.Accept c none =
                    ({ c with doneChanAllocated := true }, netutil.AcceptResult.conn) := by
                  simp [netutil.Accept, hp, hal]
                have hz := (runOps_no_conn_after_alloc rest
                  { c with doneChanAllocated := true } rfl).2
                simp [ha, hz]
              · have ha : netutil.Accept c (some e) =
                    ({ c with permErr := some e }, netutil.AcceptResult.err e) := by
                  simp [netutil.Accept, hp, hal]
                simpa [ha] using ih { c with permErr := some e }
            · have ha : netutil.Accept c fc = (c, netutil.AcceptResult.blockedThenClosed) := by
                simp [netutil.Accept, hp, hal]
              simpa [ha] using ih c
          · have ha : netutil.Accept c fc = (c, netutil.AcceptResult.err e) := by
              simp [netutil.Accept, hp]
            simpa [ha] using ih c
      | close => exact ih (netutil.Close c)

lemma Accept_allocInv (c : netutil.AcceptedConn) (fc : Option GoError)
    (h : AllocInv c) : AllocInv (netutil.Accept c fc).1 := by
  rcases hp : c.permErr with _ | e
  · cases hal : c.doneChanAllocated
    · rcases fc with _ | e
      · have ha : netutil.Accept c none =
            ({ c with doneChanAllocated := true }, netutil.AcceptResult.conn) := by
          simp [netutil.Accept, hp, hal]
        rw [ha]; intro _; left; exact hp
      · have ha : netutil.Accept c (some e) =
            ({ c with permErr := some e }, netutil.AcceptResult.err e) := by
          simp [netutil.Accept, hp, hal]
        rw [ha]; intro hh; exact absurd hh (by simp [hal])
    · have ha : netutil.Accept c fc = (c, netutil.AcceptResult.blockedThenClosed) := by
        simp [netutil.Accept, hp, hal]
      rw [ha]; exact h
  · have ha : netutil.Accept c fc = (c, netutil.AcceptResult.err e) := by
      simp [netutil.Accept, hp]
    rw [ha]; exact h

lemma Close_allocInv (c : netutil.AcceptedConn) (h : AllocInv c) :
    AllocInv (netutil.Close c) := by
  rcases hp : c.permErr with _ | e
  · intro _; right; simp [netutil.Close, hp]
  · intro hh
    rw [Close_keeps_alloc] at hh
    have hperm : (netutil.Close c).permErr = c.permErr := by simp [netutil.Close, hp]
    rcases h hh with h0 | h0
    · rw [hp] at h0; cases h0
    · right; rw [hperm]; exact h0

lemma runOps_allocInv (ops : List netutil.LOp) :
    ∀ c : netutil.AcceptedConn, AllocInv c → AllocInv (netutil.runOps c ops).1 := by
  induction ops with
  | nil => intro c h; exact h
  | cons op rest ih =>
      intro c h
      cases op with
      | accept fc => exact ih _ (Accept_allocInv c fc h)
      | close => exact ih _ (Close_allocInv c h)

/-- Claim C4: over any whole lifetime of operations on a fresh listener, at
most one Accept delivers a connection; the very first Accept (with a
successful materialization) does deliver one; and once the single
connection has been handed out (doneChan non-nil), every further Accept
either parks until closure and then yields the closed sentinel, or
returns the closed sentinel latched by Close — never a connection. -/
theorem at_most_one_connection (ops : List netutil.LOp) (fc : Option GoError)
    (h : (netutil.runOps netutil.initAcceptedConn ops).1.doneChanAllocated = true) :
    netutil.connCount (netutil.runOps netutil.initAcceptedConn ops).2 ≤ 1 ∧
    (netutil.Accept netutil.initAcceptedConn none).2 = netutil.AcceptResult.conn ∧
    ((netutil.Accept (netutil.runOps netutil.initAcceptedConn ops).1 fc).2
        = netutil.AcceptResult.blockedThenClosed ∨
      (netutil.Accept (netutil.runOps netutil.initAcceptedConn ops).1 fc).2
        = netutil.AcceptResult.err GoError.errClosed) := by
  refine ⟨runOps_conn_le_one ops _, by decide, ?_⟩
  have hinv : AllocInv (netutil.runOps netutil.initAcceptedConn ops).1 :=
    runOps_allocInv ops _ (fun hh => absurd hh (by decide))
  obtain ⟨hs, hr⟩ := Accept_after_alloc _ fc h
  rcases hr with ⟨hpn, hr⟩ | ⟨e, hpe, hr⟩
  · left; exact hr
  · rcases hinv h with h0 | h0
    · rw [hpe] at h0; cases h0
    · rw [hpe] at h0
      have he : e = GoError.errClosed := Option.some_inj.mp h0
      right; rw [hr, he]

/-- Witness for at_most_one_connection after one successful Accept. -/
theorem at_most_one_connection_witness :
    netutil.connCount
      (netutil.runOps netutil.initAcceptedConn [netutil.LOp.accept none]).2 ≤ 1 ∧
    (netutil.Accept netutil.initAcceptedConn none).2 = netutil.AcceptResult.conn ∧
    ((netutil.Accept
        (netutil.runOps netutil.initAcceptedConn [netutil.LOp.accept none]).1 none).2
        = netutil.AcceptResult.blockedThenClosed ∨
      (netutil.Accept
        (netutil.runOps netutil.initAcceptedConn [netutil.LOp.accept none]).1 none).2
        = netutil.AcceptResult.err GoError.errClosed) :=
  at_most_one_connection [netutil.LOp.accept none] none (by decide)

lemma runOps_permErr_fixed (ops : List netutil.LOp) :
    ∀ (s : netutil.AcceptedConn) (e : GoError), s.permErr = some e →
    (netutil.runOps s ops).1.permErr = some e ∧
    ∀ r ∈ (netutil.runOps s ops).2, r = netutil.AcceptResult.err e := by
  induction ops with
  | nil => intro s e h; exact ⟨h, by intro r hr; cases hr⟩
  | cons op rest ih =>
      intro s e h
      cases op with
      | accept fc =>
          have ha : netutil.Accept s fc = (s, netutil.AcceptResult.err e) := by
            simp [netutil.Accept, h]
          have hrest := ih s e h
          constructor
          · show (netutil.runOps (netutil.Accept s fc).1 rest).1.permErr = some e
            rw [ha]; exact hrest.1
          · show ∀ r ∈ (netutil.Accept s fc).2 ::
                (netutil.runOps (netutil.Accept s fc).1 rest).2,
              r = netutil.AcceptResult.err e
            rw [ha]
            intro r hr
            rcases List.mem_cons.mp hr with h1 | h1
            · rw [h1]
            · exact hrest.2 r h1
      | close =>
          have hc : (netutil.Close s).permErr = some e := by simp [netutil.Close, h]
          exact ih (netutil.Close s) e hc

/-- Claim C5: a latched permErr is terminal — from such a state, the next
Accept returns exactly that error, every Accept in any later operation
sequence keeps returning it, and the state keeps it forever; Close
latches the closed sentinel only into an unset permErr and never
overwrites a distinct prior error. -/
theorem permErr_terminal (s : netutil.AcceptedConn) (fc : Option GoError)
    (ops : List netutil.LOp) :
    (∀ e, s.permErr = some e →
        (netutil.Accept s fc).2 = netutil.AcceptResult.err e ∧
        (netutil.runOps s ops).1.permErr = some e ∧
        ∀ r ∈ (netutil.runOps s ops).2, r = netutil.AcceptResult.err e) ∧
    (s.permErr = none → (netutil.Close s).permErr = some GoError.errClosed) ∧
    (∀ e, s.permErr = some e → (netutil.Close s).permErr = some e) := by
  refine ⟨?_, ?_, ?_⟩
  · intro e h
    have ha : netutil.Accept s fc = (s, netutil.AcceptResult.err e) := by
      simp [netutil.Accept, h]
    have hfix := runOps_permErr_fixed ops s e h
    exact ⟨by rw [ha], hfix.1, hfix.2⟩
  · intro h; simp [netutil.Close, h]
  · intro e h; simp [netutil.Close, h]

/-- Witness for permErr_terminal: a listener with a latched
materialization error keeps answering it, and Close latches the closed
sentinel into a fresh listener. -/
theorem permErr_terminal_witness :
    (netutil.Accept ⟨false, some (GoError.ioErr 3), false⟩ none).2
      = netutil.AcceptResult.err (GoError.ioErr 3) ∧
    (netutil.Close ⟨false, none, false⟩).permErr = some GoError.errClosed :=
  ⟨((permErr_terminal ⟨false, some (GoError.ioErr 3), false⟩ none []).1
      (GoError.ioErr 3) (by decide)).1,
   (permErr_terminal ⟨false, none, false⟩ none []).2.1 (by decide)⟩

lemma closeNTimes_succ (n : Nat) : netutil.closeNTimes (n + 1) = (true, 1) := by
  induction n with
  | zero => rfl
  | succ n ih => rw [netutil.closeNTimes, ih]; rfl

/-- Claim C9: however many times the wrapper's Close is called, the shared
doneChan is closed exactly once (min n 1 close() invocations in total),
and a Close finding the channel already closed performs no second
close. -/
theorem doneChan_closed_exactly_once (n : Nat) :
    (netutil.closeNTimes n).2 = min n 1 ∧
    netutil.cascadingClose true = (true, false) := by
  refine ⟨?_, rfl⟩
  cases n with
  | zero => rfl
  | succ n => rw [closeNTimes_succ]; simp
